import Mathlib

set_option maxRecDepth 100000

/-!
Verification of the ISF reader (`py_isfreader.py`).

The whole file is a shallow embedding of the Python module over `List Nat`:
a byte buffer is a list of byte values, and since the module decodes header
bytes with latin1 (a 1:1 byte-to-char mapping), strings are represented by
the same type.  Python exceptions become values of `PyErr`, and fallible
code returns `Except PyErr _`.  CPython floats are idealized as exact
rationals; every value appearing in the theorems below is exactly
representable, so no rounding is lost on those inputs.
-/

/-- The exception kinds the module can raise.  `invalidFile` is the module's
own `InvalidFileError`; the others are builtin Python exceptions. -/
inductive PyErr
  | indexError
  | valueError
  | typeError
  | keyError
  | invalidFile
  | recursionError
deriving DecidableEq

/-- A Python value stored in the header dictionary: the `None` sentinel, an
`int`, a `float` (modelled as an exact rational) or a `str`. -/
inductive PyVal
  | none
  | int (n : Int)
  | float (q : ℚ)
  | str (s : List Nat)
deriving DecidableEq

/-- Byte codes of a string literal (every key in the module is ASCII, so
this matches both its `bytes` and its latin1-decoded form). -/
def str2l (s : String) : List Nat := s.data.map Char.toNat

/-- Characters `str.strip()` / `int()` / `float()` treat as whitespace,
restricted to the latin1 range. -/
def isPyWs (c : Nat) : Bool :=
  c = 32 || (9 ≤ c && c ≤ 13) || (28 ≤ c && c ≤ 31) || c = 133 || c = 160

def isDigit (c : Nat) : Bool := 48 ≤ c && c ≤ 57

/-- Decimal value of a digit list. -/
def digitsVal (l : List Nat) : Nat := l.foldl (fun a c => a * 10 + (c - 48)) 0

/-- After an initial digit, the rest of a Python numeric literal body:
digits with single underscores strictly between digits. -/
def validTail : List Nat → Bool
  | [] => true
  | c :: rest =>
    if c = 95 then
      match rest with
      | [] => false
      | d :: r => isDigit d && validTail r
    else isDigit c && validTail rest

/-- A nonempty digit group as accepted by `int()` / `float()`. -/
def validDigits : List Nat → Bool
  | [] => false
  | c :: rest => isDigit c && validTail rest

/-- `str.strip()` with no argument restricted to one predicate; used with
`isPyWs` for numeric conversion and with a single character for
`strip(';')` / `strip('"')`. -/
def stripBy (p : Nat → Bool) (l : List Nat) : List Nat :=
  ((l.dropWhile p).reverse.dropWhile p).reverse

def stripWs (l : List Nat) : List Nat := stripBy isPyWs l

/-- Python `str.strip(c)` for a one-character argument. -/
def stripChar (c : Nat) (l : List Nat) : List Nat := stripBy (fun x => x == c) l

/-- Python `int(s)` on a latin1 string: strip whitespace, optional sign,
then a digit group (underscore separators allowed). -/
def pyInt (l : List Nat) : Except PyErr Int :=
  let t := stripWs l
  let neg : Bool := t.head? == some 45
  let plus : Bool := t.head? == some 43
  let s : Int := if neg then -1 else 1
  let body := if neg || plus then t.tail else t
  if validDigits body then .ok (s * (digitsVal (body.filter isDigit) : Int))
  else .error .valueError

/-- Split a list at the first element satisfying `p`: the part before it
and, when found, the part after it. -/
def breakAt (p : Nat → Bool) : List Nat → (List Nat × Option (List Nat))
  | [] => ([], Option.none)
  | c :: r =>
    if p c then ([], some r)
    else
      let (a, b) := breakAt p r
      (c :: a, b)

/-- Mantissa of a Python float literal: `d+`, `d+.`, `d+.d+` or `.d+`
(with underscore separators inside each digit group). -/
def mantissaVal (m : List Nat) : Option ℚ :=
  match breakAt (fun c => c = 46) m with
  | (ip, Option.none) =>
    if validDigits ip then some (digitsVal (ip.filter isDigit) : ℚ) else Option.none
  | (ip, some fp) =>
    if ip.isEmpty && fp.isEmpty then Option.none
    else if (ip.isEmpty || validDigits ip) && (fp.isEmpty || validDigits fp) then
      some ((digitsVal (ip.filter isDigit) : ℚ) +
        (digitsVal (fp.filter isDigit) : ℚ) / (10 : ℚ) ^ (fp.filter isDigit).length)
    else Option.none

/-- Exponent part of a Python float literal (after `e`/`E`); absent means 0. -/
def expoVal : Option (List Nat) → Option Int
  | Option.none => some 0
  | some ep =>
    let neg : Bool := ep.head? == some 45
    let plus : Bool := ep.head? == some 43
    let sg : Int := if neg then -1 else 1
    let b := if neg || plus then ep.tail else ep
    if validDigits b then some (sg * (digitsVal (b.filter isDigit) : Int))
    else Option.none

/-- Python `float(s)` on a latin1 string, as an exact rational
(`inf`/`nan` spellings are outside the model). -/
def pyFloat (l : List Nat) : Except PyErr ℚ :=
  let t := stripWs l
  let neg : Bool := t.head? == some 45
  let plus : Bool := t.head? == some 43
  let s : ℚ := if neg then -1 else 1
  let body := if neg || plus then t.tail else t
  let (mant, ex) := breakAt (fun c => c == 101 || c == 69) body
  match mantissaVal mant, expoVal ex with
  | some m, some e => .ok (s * m * (10 : ℚ) ^ e)
  | _, _ => .error .valueError

/-- Python `str.split(sep)` for a one-character separator: split at every
occurrence, keeping empty pieces.  Never returns `[]`. -/
def pySplitOn (sep : Nat) : List Nat → List (List Nat)
  | [] => [[]]
  | c :: rest =>
    if c = sep then [] :: pySplitOn sep rest
    else
      match pySplitOn sep rest with
      | t :: ts => (c :: t) :: ts
      | [] => [[c]]

/-- Python `str.split(sep, 1)` for a one-character separator, as the pair
of pieces when the separator occurs. -/
def pySplit1 (l : List Nat) (sep : Nat) : Option (List Nat × List Nat) :=
  match breakAt (fun c => c == sep) l with
  | (_, Option.none) => Option.none
  | (a, some b) => some (a, b)

/-- Index of the first occurrence of `pat` in `l`, if any. -/
def firstOcc : List Nat → List Nat → Option Nat
  | l, pat =>
    if List.isPrefixOf pat l then some 0
    else
      match l with
      | [] => Option.none
      | _ :: rest => (firstOcc rest pat).map (· + 1)

/-- Python `str.find` / `bytes.find`: first index of `pat`, or `-1`. -/
def pyFind (l pat : List Nat) : Int :=
  match firstOcc l pat with
  | some n => (n : Int)
  | Option.none => -1

/-- Python `pat in l` (substring containment). -/
def containsSub (l pat : List Nat) : Bool := (firstOcc l pat).isSome

/-- Worker for `pyReplace`, structurally recursive on a fuel argument so
that it reduces; every step consumes at least one element of `l` when
`pat` is nonempty, so `l.length` fuel always suffices. -/
def pyReplaceAux (pat : List Nat) : Nat → List Nat → List Nat
  | _, [] => []
  | 0, l => l
  | fuel + 1, c :: rest =>
    if List.isPrefixOf pat (c :: rest) then pyReplaceAux pat fuel ((c :: rest).drop pat.length)
    else c :: pyReplaceAux pat fuel rest

/-- Python `l.replace(pat, '')`: delete every occurrence of `pat`,
scanning left to right.  (With an empty `pat` Python interleaves the empty
replacement, leaving `l` unchanged; no caller passes one.) -/
def pyReplace (l pat : List Nat) : List Nat :=
  if pat.isEmpty then l else pyReplaceAux pat l.length l

/-- Python slicing `l[a:b]` with `int` bounds (negative indices count from
the end; out-of-range bounds clamp). -/
def pySlice (l : List Nat) (a b : Int) : List Nat :=
  let n : Int := l.length
  let a' := if a < 0 then max (a + n) 0 else min a n
  let b' := if b < 0 then max (b + n) 0 else min b n
  (l.take b'.toNat).drop a'.toNat

/-- Python indexing `l[i]` with an `int` index: negative indices count from
the end, out-of-range raises `IndexError`. -/
def pyIndex (l : List Nat) (i : Int) : Except PyErr Nat :=
  let j := if i < 0 then i + l.length else i
  if 0 ≤ j then
    match l.get? j.toNat with
    | some v => .ok v
    | Option.none => .error .indexError
  else .error .indexError

/-- Association-list lookup (Python `dict` access on string keys). -/
def alookup {β : Type _} (k : List Nat) : List (List Nat × β) → Option β
  | [] => Option.none
  | (k', v) :: rest => if k = k' then some v else alookup k rest

/-- Association-list store (Python `dict` assignment: replace in place,
preserving insertion order; append when the key is new). -/
def aset {β : Type _} (k : List Nat) (v : β) : List (List Nat × β) → List (List Nat × β)
  | [] => [(k, v)]
  | (k', v') :: rest => if k = k' then (k, v) :: rest else (k', v') :: aset k v rest

/-! ### Header schema and key tables -/

/-- Coercion used for `int`-typed header fields. -/
def coInt (v : List Nat) : Except PyErr PyVal := (pyInt v).map .int

/-- Coercion used for `float`-typed header fields. -/
def coFloat (v : List Nat) : Except PyErr PyVal := (pyFloat v).map .float

/-- Coercion used for `str`-typed header fields (never fails). -/
def coStr (v : List Nat) : Except PyErr PyVal := .ok (.str v)

/-- Coercion used for the quoted-string fields `XUNIT` / `YUNIT`:
`lambda s: str.strip(s, '"')`. -/
def coQuoted (v : List Nat) : Except PyErr PyVal := .ok (.str (stripChar 34 v))

/-- `HEADER_DISPATCHER`: canonical field name to value-coercion function. -/
def HEADER_DISPATCHER : List (List Nat × (List Nat → Except PyErr PyVal)) :=
  [ (str2l "BYT_NR", coInt)
  , (str2l "ENCDG", coStr)
  , (str2l "BN_FMT", coStr)
  , (str2l "BYT_OR", coStr)
  , (str2l "WFID", coStr)
  , (str2l "NR_PT", coInt)
  , (str2l "PT_FMT", coStr)
  , (str2l "XUNIT", coQuoted)
  , (str2l "XINCR", coFloat)
  , (str2l "XZERO", coFloat)
  , (str2l "PT_OFF", coInt)
  , (str2l "YUNIT", coQuoted)
  , (str2l "YMULT", coFloat)
  , (str2l "YOFF", coFloat)
  , (str2l "YZERO", coFloat)
  , (str2l "VSCALE", coFloat)
  , (str2l "HSCALE", coFloat)
  , (str2l "VPOS", coFloat)
  , (str2l "VOFFSET", coFloat)
  , (str2l "HDELAY", coFloat)
  , (str2l ":CURVE", coStr)
  ]

/-- The canonical schema key set, in `HEADER_DISPATCHER` insertion order. -/
def HEADER_KEYS : List (List Nat) := HEADER_DISPATCHER.map Prod.fst

/-- The header dictionary: canonical key to stored value. -/
def Header := List (List Nat × PyVal)

instance : DecidableEq Header := by
  unfold Header
  infer_instance

/-- `dict.fromkeys(HEADER_DISPATCHER.keys())`: every canonical key bound to
the `None` sentinel. -/
def initHeader : Header := HEADER_KEYS.map (fun k => (k, PyVal.none))

/-- `SCOPE1_HD`: first-dialect raw key spellings to canonical names.  Every
value in the Python dict is a string. -/
def SCOPE1_HD : List (List Nat × Option (List Nat)) :=
  [ (str2l "BYT_NR", some (str2l "BYT_NR"))
  , (str2l "ENCDG", some (str2l "ENCDG"))
  , (str2l "BN_FMT", some (str2l "BN_FMT"))
  , (str2l "BYT_OR", some (str2l "BYT_OR"))
  , (str2l "WFID", some (str2l "WFID"))
  , (str2l "NR_PT", some (str2l "NR_PT"))
  , (str2l "PT_FMT", some (str2l "PT_FMT"))
  , (str2l "XUNIT", some (str2l "XUNIT"))
  , (str2l "XINCR", some (str2l "XINCR"))
  , (str2l "XZERO", some (str2l "XZERO"))
  , (str2l "PT_OFF", some (str2l "PT_OFF"))
  , (str2l "YUNIT", some (str2l "YUNIT"))
  , (str2l "YMULT", some (str2l "YMULT"))
  , (str2l "YOFF", some (str2l "YOFF"))
  , (str2l "YZERO", some (str2l "YZERO"))
  , (str2l "VSCALE", some (str2l "VSCALE"))
  , (str2l "HSCALE", some (str2l "HSCALE"))
  , (str2l "VPOS", some (str2l "VPOS"))
  , (str2l "VOFFSET", some (str2l "VOFFSET"))
  , (str2l "HDELAY", some (str2l "HDELAY"))
  , (str2l ":CURVE", some (str2l ":CURVE"))
  ]

/-- `SCOPE2_HD`: second-dialect raw key spellings to canonical names.  The
Python values of `COMP` and `FILTERF` are the builtin functions `str` and
`int`, not strings; a non-string value never passes the later
`key in HEADER_DISPATCHER` test, so both are modelled as `none`. -/
def SCOPE2_HD : List (List Nat × Option (List Nat)) :=
  [ (str2l "BYT_N", some (str2l "BYT_NR"))
  , (str2l "ENC", some (str2l "ENCDG"))
  , (str2l "BN_F", some (str2l "BN_FMT"))
  , (str2l "BYT_O", some (str2l "BYT_OR"))
  , (str2l "WFI", some (str2l "WFID"))
  , (str2l "NR_P", some (str2l "NR_PT"))
  , (str2l "PT_F", some (str2l "PT_FMT"))
  , (str2l "XUN", some (str2l "XUNIT"))
  , (str2l "XIN", some (str2l "XINCR"))
  , (str2l "XZE", some (str2l "XZERO"))
  , (str2l "PT_O", some (str2l "PT_OFF"))
  , (str2l "YUN", some (str2l "YUNIT"))
  , (str2l "YMU", some (str2l "YMULT"))
  , (str2l "YOF", some (str2l "YOFF"))
  , (str2l "YZE", some (str2l "YZERO"))
  , (str2l "VSCALE", some (str2l "VSCALE"))
  , (str2l "HSCALE", some (str2l "HSCALE"))
  , (str2l "VPOS", some (str2l "VPOS"))
  , (str2l "VOFFSET", some (str2l "VOFFSET"))
  , (str2l "HDELAY", some (str2l "HDELAY"))
  , (str2l ":CURV", some (str2l ":CURVE"))
  , (str2l "COMP", Option.none)
  , (str2l "FILTERF", Option.none)
  ]

/-- Python `dict.update`: store every entry of `upd` into `d` in order. -/
def dictUpdateAll {β : Type _} (d upd : List (List Nat × β)) : List (List Nat × β) :=
  upd.foldl (fun acc p => aset p.1 p.2 acc) d

/-- `CORRECTING_HD = SCOPE1_HD; CORRECTING_HD.update(SCOPE2_HD)`: the merged
alias table with second-dialect precedence. -/
def CORRECTING_HD : List (List Nat × Option (List Nat)) :=
  dictUpdateAll SCOPE1_HD SCOPE2_HD

/-! ### Header parser (`parse_isf_header`) -/

/-- Which namespace text is stripped from keys: `':WFMPRE:'` when it occurs
anywhere in the header text, else `':WFMP:'`. -/
def removeOf (text : List Nat) : List Nat :=
  if containsSub text (str2l ":WFMPRE:") then str2l ":WFMPRE:" else str2l ":WFMP:"

/-- One iteration of the `parse_isf_header` loop on one `;`-token.
`if kv_pair.find(' '):` skips exactly the tokens whose find result is `0`,
i.e. those starting with a space; on a token with no space at all the
result `-1` is truthy and the 2-tuple unpacking of `split(' ', 1)` raises
`ValueError`. -/
def procToken (remove : List Nat) (h : Header) (kv : List Nat) : Except PyErr Header :=
  if pyFind kv [32] = 0 then .ok h
  else
    match pySplit1 kv 32 with
    | Option.none => .error .valueError
    | some (key0, val) =>
      match (alookup (pyReplace key0 remove) CORRECTING_HD).join with
      | Option.none => .ok h
      | some ck =>
        match alookup ck HEADER_DISPATCHER with
        | Option.none => .ok h
        | some f =>
          match f val with
          | .ok v => .ok (aset ck v h)
          | .error e => .error e

/-- The `parse_isf_header` loop over the `;`-token list. -/
def parseTokens (remove : List Nat) : Header → List (List Nat) → Except PyErr Header
  | h, [] => .ok h
  | h, kv :: rest =>
    match procToken remove h kv with
    | .ok h' => parseTokens remove h' rest
    | .error e => .error e

/-- `parse_isf_header`: strip boundary semicolons, split on `;`, process
each token.  The final missing-field check in the source is dead code
(`if False and ...`), so nothing is modelled for it. -/
def parse_isf_header (text : List Nat) : Except PyErr Header :=
  parseTokens (removeOf text) initHeader (pySplitOn 59 (stripChar 59 text))

/-! ### Boundary splitter (`split_isf_header`) -/

/-- The tail of one non-recursive pass of `split_isf_header`, from the
resolved length-prefix offset `find` on: read `pad_char`, read
`data_len`, slice out header text and payload, parse the header, and
also return the region after the payload. -/
def splitFrom (data : List Nat) (find : Int) :
    Except PyErr (Header × List Nat × List Nat) :=
  match pyInt (pySlice data find (find + 1)) with
  | .error e => .error e
  | .ok pc =>
    let pad_char := pc + 1
    match pyInt (pySlice data (find + 1) (find + pad_char)) with
    | .error e => .error e
    | .ok data_len =>
      let split := find + pad_char
      match parse_isf_header (pySlice data 0 split) with
      | .error e => .error e
      | .ok header =>
        .ok (header, pySlice data split (split + data_len),
             pySlice data (split + data_len) data.length)

/-- One non-recursive pass of `split_isf_header`: locate the `b':CURV'`
marker, resolve the spelling-dependent offset, then run `splitFrom`.
Mirrors the source exactly, including the `data[find+len(curve)]` lookup
performed before the `find != -1` test. -/
def splitOnce (data : List Nat) : Except PyErr (Header × List Nat × List Nat) :=
  let find0 := pyFind data (str2l ":CURV")
  match pyIndex data (find0 + 5) with
  | .error e => .error e
  | .ok b =>
    match (if b = 69 then .ok (8 : Int)
           else if find0 ≠ -1 then .ok (7 : Int)
           else .error .invalidFile : Except PyErr Int) with
    | .error e => .error e
    | .ok len => splitFrom data (find0 + len)

/-- `split_isf_header` with explicit recursion fuel.  A recursive call is
always on a strictly shorter buffer in every terminating CPython run (a
slice of equal length is the same buffer, which loops forever and hits
CPython's recursion limit), so running out of fuel is modelled as
`RecursionError`.  The ENV branch catches exactly
`(IndexError, InvalidFileError)` and re-raises `InvalidFileError`. -/
def splitAux : Nat → List Nat → Except PyErr (Header × List Nat)
  | 0, _ => .error .recursionError
  | fuel + 1, data =>
    match splitOnce data with
    | .error e => .error e
    | .ok (header, bin_data, rest) =>
      if alookup (str2l "PT_FMT") header = some (PyVal.str (str2l "ENV")) then
        match splitAux fuel rest with
        | .ok r => .ok r
        | .error e =>
          .error (if e = .indexError || e = .invalidFile then PyErr.invalidFile else e)
      else .ok (header, bin_data)

/-- `split_isf_header` on a byte buffer. -/
def split_isf_header (data : List Nat) : Except PyErr (Header × List Nat) :=
  splitAux (data.length + 1) data

/-! ### Sample decoder (`parse_isf_data` after the split) -/

/-- Big-endian value of a byte list. -/
def beVal (l : List Nat) : Nat := l.foldl (fun a b => a * 256 + b) 0

/-- One fixed-width element, little- or big-endian, signed or unsigned. -/
def decodeElem (le signed : Bool) (w : Nat) (chunk : List Nat) : Int :=
  let u := beVal (if le then chunk.reverse else chunk)
  if signed && 2 ^ (8 * w - 1) ≤ u then (u : Int) - 2 ^ (8 * w) else (u : Int)

/-- Worker for `chunkList`, structurally recursive on a fuel argument;
with `w > 0` every step consumes at least one element, so `l.length` fuel
always suffices. -/
def chunkAux (w : Nat) : Nat → List Nat → List (List Nat)
  | _, [] => []
  | 0, l => [l]
  | fuel + 1, c :: rest => ((c :: rest).take w) :: chunkAux w fuel ((c :: rest).drop w)

/-- Split a byte list into consecutive `w`-byte chunks (`w > 0` at every
use site). -/
def chunkList (w : Nat) (l : List Nat) : List (List Nat) := chunkAux w l.length l

/-- Element widths NumPy accepts in an `i`/`u` dtype string. -/
def dtypeWidthOK (w : Int) : Bool := w = 1 || w = 2 || w = 4 || w = 8

/-- `np.fromstring(data, dtype)` for an integer dtype: `TypeError` on an
invalid width, `ValueError` when the buffer is not a whole number of
elements, else the decoded element list (its length is `len(data) // w`,
independent of `NR_PT`). -/
def np_fromstring (data : List Nat) (le signed : Bool) (w : Int) :
    Except PyErr (List Int) :=
  if dtypeWidthOK w then
    if data.length % w.toNat = 0 then
      .ok ((chunkList w.toNat data).map (decodeElem le signed w.toNat))
    else .error .valueError
  else .error .typeError

/-- NumPy arithmetic accepts the `int` and `float` scalars the header can
hold; anything else (in particular the `None` sentinel) is a `TypeError`. -/
def toNum : PyVal → Option ℚ
  | PyVal.int n => some (n : ℚ)
  | PyVal.float q => some q
  | _ => Option.none

/-- The x calibration `(i - PT_OFF) * XINCR + XZERO` of sample index `i`. -/
def xCalib (po xi xz : ℚ) (i : ℕ) : ℚ := ((i : ℚ) - po) * xi + xz

/-- The y calibration `(raw - YOFF) * YMULT + YZERO` of a raw sample. -/
def yCalib (yo ym yz : ℚ) (r : Int) : ℚ := ((r : ℚ) - yo) * ym + yz

/-- Lines 194–211 of the source after the field lookups: build the dtype
from `BYT_OR` / `BN_FMT` / `BYT_NR`, decode the payload, apply the two
affine calibrations, and combine the columns.  `np.array((xdata, ydata))`
on columns of different lengths is modelled as the `ValueError` NumPy
(≥ 1.24) raises for ragged input. -/
def decodeCore (nrv yov ymv yzv pov xiv xzv : PyVal) (msb ri : Bool) (bnv : PyVal)
    (data : List Nat) : Except PyErr (List (ℚ × ℚ)) :=
  match bnv with
  | PyVal.int w =>
    match np_fromstring data (!msb) ri w with
    | .error e => .error e
    | .ok raw =>
      match nrv with
      | PyVal.int n =>
        match toNum pov, toNum xiv, toNum xzv with
        | some po, some xi, some xz =>
          let xdata := (List.range n.toNat).map (xCalib po xi xz)
          match toNum yov, toNum ymv, toNum yzv with
          | some yo, some ym, some yz =>
            let ydata := raw.map (yCalib yo ym yz)
            if xdata.length = ydata.length then .ok (xdata.zip ydata)
            else .error .valueError
          | _, _, _ => .error .typeError
        | _, _, _ => .error .typeError
      | _ => .error .typeError
  | _ => .error .typeError

/-- The sample-decoding step of `parse_isf_data` (everything after
`split_isf_header`), on an arbitrary header dictionary: the dict lookups,
then `decodeCore`. -/
def decode_samples (header : Header) (data : List Nat) :
    Except PyErr (List (ℚ × ℚ)) :=
  match alookup (str2l "NR_PT") header, alookup (str2l "YOFF") header,
        alookup (str2l "YMULT") header, alookup (str2l "YZERO") header,
        alookup (str2l "PT_OFF") header, alookup (str2l "XINCR") header,
        alookup (str2l "XZERO") header, alookup (str2l "BYT_OR") header,
        alookup (str2l "BN_FMT") header, alookup (str2l "BYT_NR") header with
  | some nrv, some yov, some ymv, some yzv, some pov, some xiv, some xzv,
      some bov, some bfv, some bnv =>
    decodeCore nrv yov ymv yzv pov xiv xzv
      (decide (bov = PyVal.str (str2l "MSB"))) (decide (bfv = PyVal.str (str2l "RI")))
      bnv data
  | _, _, _, _, _, _, _, _, _, _ => .error .keyError

/-- `parse_isf_data` on a byte buffer, returning the (x, y) pair list
together with the header (the `with_header` flag only selects whether the
header is also handed back). -/
def parse_isf_data (data : List Nat) : Except PyErr (List (ℚ × ℚ) × Header) :=
  match split_isf_header data with
  | .error e => .error e
  | .ok (header, bin) =>
    match decode_samples header bin with
    | .error e => .error e
    | .ok arr => .ok (arr, header)

/-! ### The two dialect spellings of each canonical field (claim C8) -/

/-- The canonical header fields that have a raw spelling in both dialect
tables. -/
inductive HField
  | byt_nr | encdg | bn_fmt | byt_or | wfid | nr_pt | pt_fmt
  | xunit | xincr | xzero | pt_off | yunit | ymult | yoff | yzero
  | vscale | hscale | vpos | voffset | hdelay | curve
deriving DecidableEq

/-- The first-dialect (long) raw spelling of a field, as keyed in
`SCOPE1_HD`. -/
def longKey : HField → List Nat
  | .byt_nr => str2l "BYT_NR"
  | .encdg => str2l "ENCDG"
  | .bn_fmt => str2l "BN_FMT"
  | .byt_or => str2l "BYT_OR"
  | .wfid => str2l "WFID"
  | .nr_pt => str2l "NR_PT"
  | .pt_fmt => str2l "PT_FMT"
  | .xunit => str2l "XUNIT"
  | .xincr => str2l "XINCR"
  | .xzero => str2l "XZERO"
  | .pt_off => str2l "PT_OFF"
  | .yunit => str2l "YUNIT"
  | .ymult => str2l "YMULT"
  | .yoff => str2l "YOFF"
  | .yzero => str2l "YZERO"
  | .vscale => str2l "VSCALE"
  | .hscale => str2l "HSCALE"
  | .vpos => str2l "VPOS"
  | .voffset => str2l "VOFFSET"
  | .hdelay => str2l "HDELAY"
  | .curve => str2l ":CURVE"

/-- The second-dialect (short) raw spelling of a field, as keyed in
`SCOPE2_HD`. -/
def shortKey : HField → List Nat
  | .byt_nr => str2l "BYT_N"
  | .encdg => str2l "ENC"
  | .bn_fmt => str2l "BN_F"
  | .byt_or => str2l "BYT_O"
  | .wfid => str2l "WFI"
  | .nr_pt => str2l "NR_P"
  | .pt_fmt => str2l "PT_F"
  | .xunit => str2l "XUN"
  | .xincr => str2l "XIN"
  | .xzero => str2l "XZE"
  | .pt_off => str2l "PT_O"
  | .yunit => str2l "YUN"
  | .ymult => str2l "YMU"
  | .yoff => str2l "YOF"
  | .yzero => str2l "YZE"
  | .vscale => str2l "VSCALE"
  | .hscale => str2l "HSCALE"
  | .vpos => str2l "VPOS"
  | .voffset => str2l "VOFFSET"
  | .hdelay => str2l "HDELAY"
  | .curve => str2l ":CURV"

/-- The canonical name both spellings are normalized to. -/
def canonKey (f : HField) : List Nat := longKey f

/-- One rendered `key value` token. -/
def renderTok (key v : List Nat) : List Nat := key ++ 32 :: v

/-- Join tokens with `;` separators (no trailing separator, as in a real
ISF header). -/
def joinTok : List (List Nat) → List Nat
  | [] => []
  | [t] => t
  | t :: ts => t ++ 59 :: joinTok ts

/-- The token list of a header text for the given field/value pairs, with
`pre` (the namespace text) glued onto the first token. -/
def renderToks (pre : List Nat) (key : HField → List Nat) :
    List (HField × List Nat) → List (List Nat)
  | [] => [pre]
  | p :: ps => (pre ++ renderTok (key p.1) p.2) :: ps.map (fun q => renderTok (key q.1) q.2)

/-- A header text in the first dialect: `:WFMPRE:` namespace, long keys. -/
def renderLong (pairs : List (HField × List Nat)) : List Nat :=
  joinTok (renderToks (str2l ":WFMPRE:") longKey pairs)

/-- A header text in the second dialect: `:WFMP:` namespace, short keys. -/
def renderShort (pairs : List (HField × List Nat)) : List Nat :=
  joinTok (renderToks (str2l ":WFMP:") shortKey pairs)

/-! ### Claim C5's reading of the length prefix, for comparison -/

/-- Modelled from the spec: claim C5's description of the splitting
arithmetic, which differs from the source by reading the payload length
from "the next `pad_char` bytes" after the digit byte (the source reads
`pad_char - 1` bytes, `data[find+1 : find+pad_char]`), with the header
text extending through that region and the payload following it. -/
def split_claimed (data : List Nat) : Except PyErr (Header × List Nat) :=
  let find0 := pyFind data (str2l ":CURV")
  match pyIndex data (find0 + 5) with
  | .error e => .error e
  | .ok b =>
    match (if b = 69 then .ok (8 : Int)
           else if find0 ≠ -1 then .ok (7 : Int)
           else .error .invalidFile : Except PyErr Int) with
    | .error e => .error e
    | .ok len =>
      let off := find0 + len
      match pyInt (pySlice data off (off + 1)) with
      | .error e => .error e
      | .ok d =>
        let pad_char := d + 1
        match pyInt (pySlice data (off + 1) (off + 1 + pad_char)) with
        | .error e => .error e
        | .ok data_len =>
          let hdrEnd := off + 1 + pad_char
          match parse_isf_header (pySlice data 0 hdrEnd) with
          | .error e => .error e
          | .ok header => .ok (header, pySlice data hdrEnd (hdrEnd + data_len))

/-! ### Concrete inputs used by the theorems -/

/-- The claim C2 scenario buffer: the given header text followed by the
signed single-byte samples 1, -1 (= byte 255), 2. -/
def C2buf : List Nat :=
  str2l ":WFMPRE:BYT_NR 1;BN_FMT RI;BYT_OR LSB;NR_PT 3;PT_OFF 0;XINCR 1.0;XZERO 0.0;YOFF 0.0;YMULT 2.0;YZERO 0.0;PT_FMT Y;:CURVE #13" ++
    [1, 255, 2]

/-- A buffer with no `b':CURV'` occurrence whose byte at index 4 is `'E'`
and whose bytes 7–8 parse as a length prefix (claim C3). -/
def C3buf : List Nat := str2l "ABCDE x15HELLOx"

/-- Claim C5 comparison buffer: `":CURVE #13"` followed by the three
payload bytes `"999"`, themselves ASCII digits. -/
def C5buf : List Nat := str2l ":CURVE #13999"

/-- Claim C7 counterexample buffer: an ENV outer header with empty payload,
followed by a marker-free tail whose length-prefix position holds a
non-digit. -/
def C7buf : List Nat := str2l ":WFMPRE:PT_FMT ENV;:CURVE #10" ++ str2l "xxxxEabc"

/-- Claim C7 witness buffer: an ENV outer header with empty payload
followed by a complete second header/payload pair. -/
def C7okBuf : List Nat :=
  str2l ":WFMPRE:PT_FMT ENV;:CURVE #10" ++ str2l ":WFMP:NR_P 1;:CURV #11" ++ [7]

/-- The tail of `C7okBuf` after the first (empty) payload. -/
def C7okRest : List Nat := str2l ":WFMP:NR_P 1;:CURV #11" ++ [7]

/-- The header parsed from the outer ENV header text of `C7okBuf`. -/
def C7envHeader : Header :=
  aset (str2l ":CURVE") (PyVal.str (str2l "#10"))
    (aset (str2l "PT_FMT") (PyVal.str (str2l "ENV")) initHeader)

/-- A header whose `NR_PT` is the negative integer -2, with every other
field the decoder reads well-typed (claim C6). -/
def C6negHeader : Header :=
  [ (str2l "NR_PT", PyVal.int (-2))
  , (str2l "YOFF", PyVal.float 0)
  , (str2l "YMULT", PyVal.float 1)
  , (str2l "YZERO", PyVal.float 0)
  , (str2l "PT_OFF", PyVal.int 0)
  , (str2l "XINCR", PyVal.float 1)
  , (str2l "XZERO", PyVal.float 0)
  , (str2l "BYT_OR", PyVal.str (str2l "LSB"))
  , (str2l "BN_FMT", PyVal.str (str2l "RI"))
  , (str2l "BYT_NR", PyVal.int 1)
  ]

/-- A well-typed header used by witnesses: 3 signed little-endian 1-byte
samples, YMULT 2, everything else 0 or 1. -/
def W1Header : Header :=
  [ (str2l "NR_PT", PyVal.int 3)
  , (str2l "YOFF", PyVal.float 0)
  , (str2l "YMULT", PyVal.float 2)
  , (str2l "YZERO", PyVal.float 0)
  , (str2l "PT_OFF", PyVal.int 0)
  , (str2l "XINCR", PyVal.float 1)
  , (str2l "XZERO", PyVal.float 0)
  , (str2l "BYT_OR", PyVal.str (str2l "LSB"))
  , (str2l "BN_FMT", PyVal.str (str2l "RI"))
  , (str2l "BYT_NR", PyVal.int 1)
  ]

/-- The header parsed from `":CURVE #13"` (used by the C5 witness). -/
def C5wHeader : Header := aset (str2l ":CURVE") (PyVal.str (str2l "#13")) initHeader

/-! ### Helper lemmas: chunking and zipping -/

theorem chunkAux_length (w : Nat) (hw : 0 < w) :
    ∀ fuel l, List.length l ≤ fuel → w ∣ List.length l →
      (chunkAux w fuel l).length = List.length l / w := by
  intro fuel
  induction fuel with
  | zero =>
    intro l hl _
    have : l = [] := List.eq_nil_of_length_eq_zero (Nat.le_zero.mp hl)
    subst this
    simp [chunkAux]
  | succ fuel ih =>
    intro l hl hd
    match l with
    | [] => simp [chunkAux]
    | c :: rest =>
      have hlen : w ≤ (c :: rest).length := by
        refine Nat.le_of_dvd ?_ hd
        simp
      have hd' : w ∣ (c :: rest).length - w := by
        exact (Nat.dvd_sub' hd dvd_rfl)
      have hfuel : ((c :: rest).drop w).length ≤ fuel := by
        simp only [List.length_drop]
        simp only [List.length_cons] at hl ⊢
        omega
      have := ih ((c :: rest).drop w) hfuel (by simpa using hd')
      simp only [chunkAux, List.length_cons, this, List.length_drop]
      have harith : (rest.length + 1) / w = (rest.length + 1 - w) / w + 1 :=
        Nat.div_eq_sub_div hw (by simpa using hlen)
      rw [harith]

theorem chunkList_length (w : Nat) (hw : 0 < w) (l : List Nat) (hd : w ∣ List.length l) :
    (chunkList w l).length = List.length l / w :=
  chunkAux_length w hw l.length l le_rfl hd

theorem np_fromstring_length (data : List Nat) (le signed : Bool) (w : Int)
    (raw : List Int) (hwpos : 0 < w)
    (h : np_fromstring data le signed w = .ok raw) :
    w.toNat ∣ data.length ∧ raw.length = data.length / w.toNat := by
  unfold np_fromstring at h
  by_cases hok : dtypeWidthOK w = true
  · simp only [hok, if_true] at h
    by_cases hmod : data.length % w.toNat = 0
    · have hd : w.toNat ∣ data.length := Nat.dvd_of_mod_eq_zero hmod
      refine ⟨hd, ?_⟩
      simp only [hmod, if_true] at h
      cases h
      simp [List.length_map, chunkList_length w.toNat (by omega) data hd]
    · simp [hmod] at h
  · simp [hok] at h

theorem get?_zip {α β : Type _} :
    ∀ (a : List α) (b : List β) (i : Nat),
      (a.zip b).get? i =
        match a.get? i, b.get? i with
        | some x, some y => some (x, y)
        | _, _ => Option.none := by
  intro a
  induction a with
  | nil => intro b i; cases b <;> cases i <;> simp
  | cons x xs ih =>
    intro b i
    cases b with
    | nil => cases i <;> simp
    | cons y ys =>
      cases i with
      | zero => simp [List.zip]
      | succ j => simpa [List.zip] using ih ys j

/-! ### Claims C1, C2, C6: the sample decoder -/

/-- C1: for a well-typed header declaring `NR_PT` samples whose payload
decodes to the raw integer list `raw` of that length, the decoder returns
exactly `NR_PT` (x, y) pairs in sample order with
`x[i] = (i - PT_OFF) * XINCR + XZERO` and
`y[i] = (raw[i] - YOFF) * YMULT + YZERO`. -/
theorem C1_sample_array_affine (header : Header) (payload : List Nat)
    (n w po : Int) (yo ym yz xi xz : ℚ) (bov bfv : PyVal) (raw : List Int)
    (hnr : alookup (str2l "NR_PT") header = some (PyVal.int n))
    (hyo : alookup (str2l "YOFF") header = some (PyVal.float yo))
    (hym : alookup (str2l "YMULT") header = some (PyVal.float ym))
    (hyz : alookup (str2l "YZERO") header = some (PyVal.float yz))
    (hpo : alookup (str2l "PT_OFF") header = some (PyVal.int po))
    (hxi : alookup (str2l "XINCR") header = some (PyVal.float xi))
    (hxz : alookup (str2l "XZERO") header = some (PyVal.float xz))
    (hbo : alookup (str2l "BYT_OR") header = some bov)
    (hbf : alookup (str2l "BN_FMT") header = some bfv)
    (hbn : alookup (str2l "BYT_NR") header = some (PyVal.int w))
    (hraw : np_fromstring payload (!decide (bov = PyVal.str (str2l "MSB")))
      (decide (bfv = PyVal.str (str2l "RI"))) w = .ok raw)
    (hlen : raw.length = n.toNat) :
    ∃ pairs : List (ℚ × ℚ),
      decode_samples header payload = .ok pairs ∧
      pairs.length = n.toNat ∧
      ∀ i r, raw.get? i = some r →
        pairs.get? i = some (xCalib (po : ℚ) xi xz i, yCalib yo ym yz r) := by
  refine ⟨((List.range n.toNat).map (xCalib (po : ℚ) xi xz)).zip
    (raw.map (yCalib yo ym yz)), ?_, ?_, ?_⟩
  · simp only [decode_samples, hnr, hyo, hym, hyz, hpo, hxi, hxz, hbo, hbf, hbn,
      decodeCore, hraw, toNum]
    rw [if_pos]
    simp [hlen]
  · simp [hlen]
  · intro i r hr
    have hi : i < raw.length := by
      by_contra hge
      rw [List.get?_eq_none.mpr (by omega)] at hr
      cases hr
    rw [get?_zip]
    rw [List.get?_map, List.get?_map, hr,
      List.get?_range (by omega : i < n.toNat)]
    rfl

/-- C1 witness: a concrete well-typed header and 3-byte payload. -/
theorem C1_sample_array_affine_witness :
    ∃ pairs : List (ℚ × ℚ),
      decode_samples W1Header [1, 255, 2] = .ok pairs ∧
      pairs.length = (3 : Int).toNat ∧
      ∀ i r, [(1 : Int), -1, 2].get? i = some r →
        pairs.get? i = some (xCalib ((0 : Int) : ℚ) 1 0 i, yCalib 0 2 0 r) :=
  C1_sample_array_affine W1Header [1, 255, 2] 3 1 0 0 2 0 1 0
    (PyVal.str (str2l "LSB")) (PyVal.str (str2l "RI")) [1, -1, 2]
    (by with_unfolding_all rfl) (by with_unfolding_all rfl) (by with_unfolding_all rfl)
    (by with_unfolding_all rfl) (by with_unfolding_all rfl) (by with_unfolding_all rfl)
    (by with_unfolding_all rfl) (by with_unfolding_all rfl) (by with_unfolding_all rfl)
    (by with_unfolding_all rfl) (by with_unfolding_all rfl) (by with_unfolding_all rfl)

/-- C2: the concrete scenario buffer decodes to
X = [0, 1, 2] and Y = [2, -2, 4]. -/
theorem C2_concrete_scenario :
    (parse_isf_data C2buf).toOption.map Prod.fst =
      some [((0 : ℚ), (2 : ℚ)), (1, -2), (2, 4)] := by
  with_unfolding_all rfl

/-- C3: the buffer `b"ABCDE x15HELLOx"` contains no `b':CURV'` marker at
all, yet `split_isf_header` returns a header/payload pair instead of
raising `InvalidFileError`: because `data[find+len(curve)]` is evaluated
with `find = -1` (a negative index, i.e. `data[4]`) before `find != -1`
is tested, the byte `'E'` at index 4 sends the function down the
found-marker path. -/
theorem C3_missing_marker_not_detected :
    containsSub C3buf (str2l ":CURV") = false ∧
    split_isf_header C3buf = Except.ok (initHeader, str2l "HELLO") := by
  constructor
  · with_unfolding_all rfl
  · with_unfolding_all rfl

/-- C6 counterexample: `C6negHeader` declares `NR_PT = -2` and
`BYT_NR = 1`; the empty payload has length 0 ≠ NR_PT * BYT_NR = -2, yet
the decoder returns an (empty) sample array instead of failing: the code
never compares the element count against `NR_PT`, and `np.arange` of a
negative count is simply empty. -/
theorem C6_cex_negative_nr_pt :
    decode_samples C6negHeader [] = Except.ok [] ∧
    ((List.length ([] : List Nat) : Int) ≠ (-2) * 1) := by
  constructor
  · with_unfolding_all rfl
  · decide

/-- C6 as amended: when `NR_PT` is a nonnegative integer, `BYT_NR` is a
width NumPy accepts (1, 2, 4 or 8) and the calibration fields are
well-typed, a payload whose byte length differs from `NR_PT * BYT_NR`
makes the decoding step fail with a `ValueError` (the spec's
`DecodeError`) — at `np.fromstring` when the length is not a multiple of
the width, otherwise at the ragged `np.array((xdata, ydata))` — and no
sample array is returned. -/
theorem C6_length_mismatch_fails (header : Header) (payload : List Nat)
    (n w po : Int) (yo ym yz xi xz : ℚ) (bov bfv : PyVal)
    (hnr : alookup (str2l "NR_PT") header = some (PyVal.int n))
    (hyo : alookup (str2l "YOFF") header = some (PyVal.float yo))
    (hym : alookup (str2l "YMULT") header = some (PyVal.float ym))
    (hyz : alookup (str2l "YZERO") header = some (PyVal.float yz))
    (hpo : alookup (str2l "PT_OFF") header = some (PyVal.int po))
    (hxi : alookup (str2l "XINCR") header = some (PyVal.float xi))
    (hxz : alookup (str2l "XZERO") header = some (PyVal.float xz))
    (hbo : alookup (str2l "BYT_OR") header = some bov)
    (hbf : alookup (str2l "BN_FMT") header = some bfv)
    (hbn : alookup (str2l "BYT_NR") header = some (PyVal.int w))
    (hn : 0 ≤ n) (hwv : w = 1 ∨ w = 2 ∨ w = 4 ∨ w = 8)
    (hlen : (payload.length : Int) ≠ n * w) :
    decode_samples header payload = .error .valueError := by
  have hwpos : 0 < w := by rcases hwv with h | h | h | h <;> omega
  have hwok : dtypeWidthOK w = true := by
    rcases hwv with h | h | h | h <;> simp [dtypeWidthOK, h]
  simp only [decode_samples, hnr, hyo, hym, hyz, hpo, hxi, hxz, hbo, hbf, hbn,
    decodeCore]
  by_cases hmod : payload.length % w.toNat = 0
  · have hd : w.toNat ∣ payload.length := Nat.dvd_of_mod_eq_zero hmod
    have hcount : (chunkList w.toNat payload).length = payload.length / w.toNat :=
      chunkList_length w.toNat (by omega) payload hd
    have hne : n.toNat ≠ payload.length / w.toNat := by
      intro hEq
      apply hlen
      have h1 : payload.length = payload.length / w.toNat * w.toNat :=
        (Nat.div_mul_cancel hd).symm
      have h2 : payload.length = n.toNat * w.toNat := by rw [h1, ← hEq]
      have h3 : ((n.toNat : Int)) = n := Int.toNat_of_nonneg hn
      have h4 : ((w.toNat : Int)) = w := Int.toNat_of_nonneg (by omega)
      rw [h2]
      push_cast
      rw [h3, h4]
    simp only [np_fromstring, hwok, if_true, hmod, toNum]
    rw [if_neg]
    simp only [List.length_map, List.length_range, hcount]
    exact hne
  · simp [np_fromstring, hwok, hmod]

/-- C6 witness: a 1-byte payload against a header declaring 3 one-byte
samples. -/
theorem C6_length_mismatch_fails_witness :
    decode_samples W1Header [5] = .error .valueError :=
  C6_length_mismatch_fails W1Header [5] 3 1 0 0 2 0 1 0
    (PyVal.str (str2l "LSB")) (PyVal.str (str2l "RI"))
    (by with_unfolding_all rfl) (by with_unfolding_all rfl) (by with_unfolding_all rfl)
    (by with_unfolding_all rfl) (by with_unfolding_all rfl) (by with_unfolding_all rfl)
    (by with_unfolding_all rfl) (by with_unfolding_all rfl) (by with_unfolding_all rfl)
    (by with_unfolding_all rfl) (by decide) (by decide) (by decide)

/-! ### Helper lemmas: the token loop -/

theorem pyFind_single_zero (t : List Nat) (c : Nat) :
    pyFind t [c] = 0 ↔ t.head? = some c := by
  cases t with
  | nil => simp [pyFind, firstOcc, List.isPrefixOf]
  | cons a rest =>
    by_cases hac : c = a
    · subst hac
      simp [pyFind, firstOcc, List.isPrefixOf]
    · have h1 : List.isPrefixOf [c] (a :: rest) = false := by
        simp [List.isPrefixOf]
        intro h
        exact absurd h hac
      constructor
      · intro hfind
        exfalso
        unfold pyFind firstOcc at hfind
        simp only [h1, Bool.false_eq_true, if_false] at hfind
        cases hocc : firstOcc rest [c] with
        | none => rw [hocc] at hfind; simp at hfind
        | some m => rw [hocc] at hfind; simp at hfind; omega
      · intro hhead
        exact absurd (Option.some.inj hhead).symm hac

theorem procToken_skip (remove : List Nat) (h : Header) (t : List Nat)
    (ht : t.head? = some 32) : procToken remove h t = .ok h := by
  unfold procToken
  rw [if_pos ((pyFind_single_zero t 32).mpr ht)]

/-- Every way a token step can return successfully: untouched header, or a
single store at the canonical key the alias table produced. -/
theorem procToken_spec (remove : List Nat) (h0 : Header) (kv : List Nat) (h1 : Header)
    (hstep : procToken remove h0 kv = .ok h1) :
    h1 = h0 ∨
    ∃ key0 val ck f v,
      pyFind kv [32] ≠ 0 ∧
      pySplit1 kv 32 = some (key0, val) ∧
      (alookup (pyReplace key0 remove) CORRECTING_HD).join = some ck ∧
      alookup ck HEADER_DISPATCHER = some f ∧
      f val = .ok v ∧
      h1 = aset ck v h0 := by
  unfold procToken at hstep
  split at hstep
  · left
    exact (Except.ok.inj hstep).symm
  · rename_i hfind
    split at hstep
    · cases hstep
    · rename_i key0 val hsplit
      split at hstep
      · left
        exact (Except.ok.inj hstep).symm
      · rename_i ck hjoin
        split at hstep
        · left
          exact (Except.ok.inj hstep).symm
        · rename_i f hdisp
          split at hstep
          · rename_i v hcoerce
            right
            exact ⟨key0, val, ck, f, v, hfind, hsplit, hjoin, hdisp, hcoerce,
              (Except.ok.inj hstep).symm⟩
          · cases hstep

theorem alookup_mem {β : Type _} (k : List Nat) (v : β) :
    ∀ l : List (List Nat × β), alookup k l = some v → k ∈ l.map Prod.fst := by
  intro l
  induction l with
  | nil => intro hl; cases hl
  | cons p rest ih =>
    intro hl
    unfold alookup at hl
    by_cases hk : k = p.1
    · simp [hk]
    · rw [if_neg hk] at hl
      simp [ih hl]

theorem aset_map_fst {β : Type _} (k : List Nat) (v : β) :
    ∀ l : List (List Nat × β), k ∈ l.map Prod.fst →
      (aset k v l).map Prod.fst = l.map Prod.fst := by
  intro l
  induction l with
  | nil => intro hm; cases hm
  | cons p rest ih =>
    intro hm
    unfold aset
    by_cases hk : k = p.1
    · simp [hk]
    · rw [if_neg hk]
      simp only [List.map_cons] at hm ⊢
      rcases List.mem_cons.mp hm with hm' | hm'
      · exact absurd hm' hk
      · rw [ih hm']

theorem alookup_aset_ne {β : Type _} (k k' : List Nat) (v : β) (hne : k ≠ k') :
    ∀ l : List (List Nat × β), alookup k (aset k' v l) = alookup k l := by
  intro l
  induction l with
  | nil => simp [aset, alookup, hne]
  | cons p rest ih =>
    unfold aset
    by_cases hk : k' = p.1
    · subst hk
      simp [alookup, hne]
    · rw [if_neg hk]
      unfold alookup
      by_cases hkp : k = p.1
      · simp [hkp]
      · simp [hkp, ih]

theorem alookup_const (c : PyVal) :
    ∀ (ks : List (List Nat)) (k : List Nat), k ∈ ks →
      alookup k (ks.map fun x => (x, c)) = some c := by
  intro ks
  induction ks with
  | nil => intro k hk; cases hk
  | cons a as ih =>
    intro k hk
    simp only [List.map_cons]
    unfold alookup
    by_cases hka : k = a
    · simp [hka]
    · rw [if_neg hka]
      rcases List.mem_cons.mp hk with h | h
      · exact absurd h hka
      · exact ih k h

theorem initHeader_fst : initHeader.map Prod.fst = HEADER_KEYS := by
  with_unfolding_all rfl

/-- The canonical key set is preserved across the whole token loop. -/
theorem parseTokens_keys (remove : List Nat) :
    ∀ (toks : List (List Nat)) (h0 h : Header),
      parseTokens remove h0 toks = .ok h →
      h0.map Prod.fst = HEADER_KEYS → h.map Prod.fst = HEADER_KEYS := by
  intro toks
  induction toks with
  | nil =>
    intro h0 h hp h0k
    cases hp
    exact h0k
  | cons kv rest ih =>
    intro h0 h hp h0k
    unfold parseTokens at hp
    split at hp
    · rename_i h1 hstep
      refine ih h1 h hp ?_
      rcases procToken_spec remove h0 kv h1 hstep with heq |
        ⟨_, _, ck, f, v, _, _, _, hdisp, _, h1eq⟩
      · rw [heq]; exact h0k
      · have hmem : ck ∈ HEADER_KEYS := alookup_mem ck f HEADER_DISPATCHER hdisp
        rw [h1eq, aset_map_fst ck v h0 (h0k ▸ hmem), h0k]
    · cases hp

/-- Whether one token stores into canonical key `k` (the mirror of the key
computation inside `procToken`). -/
def assignsB (remove kv k : List Nat) : Bool :=
  if pyFind kv [32] = 0 then false
  else
    match pySplit1 kv 32 with
    | Option.none => false
    | some (key0, _) => (alookup (pyReplace key0 remove) CORRECTING_HD).join == some k

/-- A key no token assigns keeps its incoming binding across the loop. -/
theorem parseTokens_not_assigned (remove k : List Nat) :
    ∀ (toks : List (List Nat)) (h0 h : Header),
      parseTokens remove h0 toks = .ok h →
      (∀ kv ∈ toks, assignsB remove kv k = false) →
      alookup k h = alookup k h0 := by
  intro toks
  induction toks with
  | nil =>
    intro h0 h hp _
    cases hp
    rfl
  | cons kv rest ih =>
    intro h0 h hp hassign
    unfold parseTokens at hp
    split at hp
    · rename_i h1 hstep
      have hrest := ih h1 h hp (fun t ht => hassign t (List.mem_cons_of_mem kv ht))
      rw [hrest]
      rcases procToken_spec remove h0 kv h1 hstep with heq |
        ⟨key0, val, ck, f, v, hfind, hsplit, hjoin, _, _, h1eq⟩
      · rw [heq]
      · have hkv := hassign kv (List.mem_cons_self kv rest)
        unfold assignsB at hkv
        rw [if_neg hfind, hsplit] at hkv
        simp only [hjoin, beq_iff_eq, Option.some.injEq] at hkv
        have hne : k ≠ ck := fun hEq => by
          rw [hEq] at hkv
          simp at hkv
        rw [h1eq, alookup_aset_ne k ck v hne h0]
    · cases hp

theorem parseTokens_filter_space (remove : List Nat) :
    ∀ (toks : List (List Nat)) (h : Header),
      parseTokens remove h toks =
        parseTokens remove h (toks.filter fun t => !(t.head? == some 32)) := by
  intro toks
  induction toks with
  | nil => intro h; rfl
  | cons kv rest ih =>
    intro h
    by_cases hsp : kv.head? = some 32
    · have hstep : parseTokens remove h (kv :: rest) = parseTokens remove h rest := by
        show (match procToken remove h kv with
          | .ok h' => parseTokens remove h' rest
          | .error e => .error e) = parseTokens remove h rest
        rw [procToken_skip remove h kv hsp]
      rw [hstep, ih h, List.filter_cons]
      rw [if_neg (by simp [hsp])]
    · rw [List.filter_cons, if_pos (by simp [hsp])]
      unfold parseTokens
      cases hstep : procToken remove h kv with
      | ok h1 => exact ih h1
      | error e => rfl

/-- C10: any `;`-token whose first character is a space is skipped entirely
by `parse_isf_header` (its `find(' ')` result 0 is falsy), contributing
nothing to the result: parsing equals parsing with those tokens removed. -/
theorem C10_space_tokens_skipped (text : List Nat) :
    parse_isf_header text =
      parseTokens (removeOf text) initHeader
        ((pySplitOn 59 (stripChar 59 text)).filter fun t => !(t.head? == some 32)) :=
  parseTokens_filter_space (removeOf text) (pySplitOn 59 (stripChar 59 text)) initHeader

/-- Success of one token step, which does not depend on the header state. -/
def stepOK (remove t : List Nat) : Bool :=
  match procToken remove initHeader t with
  | .ok _ => true
  | .error _ => false

theorem stepOK_indep (remove t : List Nat) (hok : stepOK remove t = true) :
    ∀ h : Header, ∃ h', procToken remove h t = .ok h' := by
  intro h
  simp only [procToken]
  by_cases hfind : pyFind t [32] = 0
  · exact ⟨h, by rw [if_pos hfind]⟩
  · rw [if_neg hfind]
    cases hsplit : pySplit1 t 32 with
    | none =>
      exfalso
      simp only [stepOK, procToken] at hok
      rw [if_neg hfind, hsplit] at hok
      simp at hok
    | some kvp =>
      obtain ⟨key0, val⟩ := kvp
      cases hjoin : (alookup (pyReplace key0 remove) CORRECTING_HD).join with
      | none => exact ⟨h, by simp only [hjoin]⟩
      | some ck =>
        cases hdisp : alookup ck HEADER_DISPATCHER with
        | none => exact ⟨h, by simp only [hjoin, hdisp]⟩
        | some f =>
          cases hcoerce : f val with
          | ok v => exact ⟨aset ck v h, by simp only [hjoin, hdisp, hcoerce]⟩
          | error e =>
            exfalso
            simp only [stepOK, procToken] at hok
            rw [if_neg hfind, hsplit] at hok
            simp only [hjoin, hdisp, hcoerce] at hok
            cases hok

theorem parseTokens_total (remove : List Nat) :
    ∀ (toks : List (List Nat)) (h : Header),
      (∀ t ∈ toks, stepOK remove t = true) →
      ∃ h', parseTokens remove h toks = .ok h' := by
  intro toks
  induction toks with
  | nil => intro h _; exact ⟨h, rfl⟩
  | cons kv rest ih =>
    intro h hall
    obtain ⟨h1, hstep⟩ := stepOK_indep remove kv (hall kv (List.mem_cons_self kv rest)) h
    obtain ⟨h2, hrest⟩ := ih h1 (fun t ht => hall t (List.mem_cons_of_mem kv ht))
    refine ⟨h2, ?_⟩
    unfold parseTokens
    rw [hstep]
    exact hrest

/-- C4 counterexample: on the header text `"FOO"` — a single token with no
space separator — `parse_isf_header` raises `ValueError` instead of
returning a Header: `"FOO".find(' ')` is `-1`, which is truthy, so the
2-tuple unpacking of `"FOO".split(' ', 1)` (a 1-element list) fails. -/
theorem C4_cex_no_space_token :
    parse_isf_header (str2l "FOO") = Except.error PyErr.valueError := by
  with_unfolding_all rfl

/-- C4 as amended: `parse_isf_header` returns a Header (rather than
raising) exactly on texts whose `;`-tokens each process cleanly — i.e.
each token either starts with a space (and is skipped) or contains a
space and, when its key names a schema field, carries a value its
coercion accepts.  Tokens with no space, and non-numeric values for
integer/float fields, raise `ValueError` instead. -/
theorem C4_parse_succeeds_on_clean_tokens (text : List Nat)
    (htoks : ∀ t ∈ pySplitOn 59 (stripChar 59 text), stepOK (removeOf text) t = true) :
    ∃ h, parse_isf_header text = .ok h :=
  parseTokens_total (removeOf text) (pySplitOn 59 (stripChar 59 text)) initHeader htoks

/-- C4 witness: a two-token header text, one integer field and one string
field. -/
theorem C4_parse_succeeds_on_clean_tokens_witness :
    ∃ h, parse_isf_header (str2l ":WFMPRE:NR_PT 3;BN_FMT RI") = .ok h :=
  C4_parse_succeeds_on_clean_tokens (str2l ":WFMPRE:NR_PT 3;BN_FMT RI")
    (by with_unfolding_all decide)

/-- C9: whenever `parse_isf_header` returns a Header, that Header has an
entry for every canonical schema field (exactly the `HEADER_DISPATCHER`
key set, none omitted), and every field assigned by no `;`-token of the
input is bound to the explicit `None` sentinel — not dropped, not zero,
not an empty string. -/
theorem C9_header_complete_with_sentinels (text : List Nat) (h : Header)
    (hp : parse_isf_header text = .ok h) :
    h.map Prod.fst = HEADER_KEYS ∧
    ∀ k, k ∈ HEADER_KEYS →
      (∀ kv ∈ pySplitOn 59 (stripChar 59 text), assignsB (removeOf text) kv k = false) →
      alookup k h = some PyVal.none := by
  unfold parse_isf_header at hp
  constructor
  · exact parseTokens_keys _ _ _ _ hp initHeader_fst
  · intro k hk hnone
    rw [parseTokens_not_assigned _ k _ _ _ hp hnone]
    unfold initHeader
    exact alookup_const PyVal.none HEADER_KEYS k hk

/-- Header used by the C9 witness: only `NR_PT` assigned. -/
def C9wHeader : Header := aset (str2l "NR_PT") (PyVal.int 3) initHeader

/-- C9 witness: a text assigning only `NR_PT`; every other field is
present and bound to the sentinel. -/
theorem C9_header_complete_with_sentinels_witness :
    C9wHeader.map Prod.fst = HEADER_KEYS ∧
    ∀ k, k ∈ HEADER_KEYS →
      (∀ kv ∈ pySplitOn 59 (stripChar 59 (str2l ":WFMPRE:NR_PT 3")),
        assignsB (removeOf (str2l ":WFMPRE:NR_PT 3")) kv k = false) →
      alookup k C9wHeader = some PyVal.none :=
  C9_header_complete_with_sentinels (str2l ":WFMPRE:NR_PT 3") C9wHeader
    (by with_unfolding_all rfl)

/-! ### Claim C7: ENV-mode recursion -/

/-- C7 counterexample: `C7buf`'s first header has `PT_FMT = "ENV"` and the
region after its (empty) payload contains no `b':CURV'` marker, so the
recursive split fails — but it fails with `ValueError` (`int()` on the
non-digit the negative-index slip selects as length prefix), which the
`except (IndexError, InvalidFileError)` clause does not catch, so
`split_isf_header` raises `ValueError`, not `InvalidFileError`. -/
theorem C7_cex_value_error_not_converted :
    (splitOnce C7buf).toOption.map
        (fun r => (alookup (str2l "PT_FMT") r.1, r.2.2)) =
      some (some (PyVal.str (str2l "ENV")), str2l "xxxxEabc") ∧
    containsSub (str2l "xxxxEabc") (str2l ":CURV") = false ∧
    split_isf_header C7buf = Except.error PyErr.valueError ∧
    PyErr.valueError ≠ PyErr.invalidFile := by
  refine ⟨?_, ?_, ?_, ?_⟩
  · with_unfolding_all rfl
  · with_unfolding_all rfl
  · with_unfolding_all rfl
  · decide

/-- C7 as amended: when the first pass parses a header with
`PT_FMT = "ENV"`, `split_isf_header` returns the result of recursively
re-running the split on the buffer region immediately after the first
payload; if that recursive split fails with an index error or
`InvalidFileError`, the failure becomes `InvalidFileError` — any other
failure (e.g. `ValueError` from a malformed nested length prefix)
propagates unchanged. -/
theorem C7_env_recursion (fuel : Nat) (data bin rest : List Nat) (h : Header)
    (h1 : splitOnce data = .ok (h, bin, rest))
    (h2 : alookup (str2l "PT_FMT") h = some (PyVal.str (str2l "ENV"))) :
    splitAux (fuel + 1) data =
      match splitAux fuel rest with
      | .ok r => .ok r
      | .error e =>
        .error (if e = .indexError || e = .invalidFile then PyErr.invalidFile else e) := by
  simp only [splitAux, h1]
  rw [if_pos h2]

/-- C7 witness: an ENV outer header chained to a complete second
header/payload pair. -/
theorem C7_env_recursion_witness :
    splitAux (C7okBuf.length + 1) C7okBuf =
      match splitAux C7okBuf.length C7okRest with
      | .ok r => .ok r
      | .error e =>
        .error (if e = .indexError || e = .invalidFile then PyErr.invalidFile else e) :=
  C7_env_recursion C7okBuf.length C7okBuf [] C7okRest C7envHeader
    (by with_unfolding_all rfl) (by with_unfolding_all rfl)

/-! ### Claim C5: the length-prefix arithmetic -/

/-- C5 counterexample: on `":CURVE #13" ++ "999"` the source computes
`pad_char = 2` and reads the payload length from the single byte
`data[9:10] = "3"`, returning the 3-byte payload `"999"`; the claim's
reading — the `pad_char` bytes after the digit, `data[9:11] = "39"` —
would declare a 39-byte payload and a header text one byte longer,
returning the clamped payload `"99"`. -/
theorem C5_cex_length_prefix :
    (split_isf_header C5buf).toOption.map (fun r => r.2) = some (str2l "999") ∧
    (split_claimed C5buf).toOption.map (fun r => r.2) = some (str2l "99") ∧
    str2l "999" ≠ str2l "99" := by
  refine ⟨?_, ?_, ?_⟩
  · with_unfolding_all rfl
  · with_unfolding_all rfl
  · decide

/-! ### Helper lemmas: slices and digit parsing -/

theorem pySlice_nat (l : List Nat) (a b : Nat) (hb : b ≤ l.length) :
    pySlice l (a : Int) (b : Int) = (l.drop a).take (b - a) := by
  simp only [pySlice]
  have h1 : ¬((a : Int) < 0) := by omega
  have h2 : ¬((b : Int) < 0) := by omega
  rw [if_neg h1, if_neg h2]
  have h3 : (min (b : Int) ((l.length : Nat) : Int)).toNat = b := by omega
  have h4 : (min (a : Int) ((l.length : Nat) : Int)).toNat = min a l.length := by omega
  rw [h3, h4]
  by_cases hab : a ≤ l.length
  · rw [min_eq_left hab, List.drop_take]
  · have hmin : min a l.length = l.length := by omega
    rw [hmin]
    rw [List.drop_eq_nil_of_le (by simp [min_le_left] : (l.take b).length ≤ l.length)]
    rw [List.drop_eq_nil_of_le (by omega : l.length ≤ a)]
    simp

theorem pySlice_single (l : List Nat) (a d : Nat) (hd : l.get? a = some d) :
    pySlice l (a : Int) ((a : Int) + 1) = [d] := by
  obtain ⟨ha, hget⟩ := List.get?_eq_some.mp hd
  rw [show ((a : Int) + 1) = ((a + 1 : Nat) : Int) by push_cast; ring]
  rw [pySlice_nat l a (a + 1) (by omega)]
  rw [List.drop_eq_getElem_cons ha]
  simp [List.get_eq_getElem] at hget
  simp [hget]

theorem dropWhile_all_false (p : Nat → Bool) :
    ∀ l : List Nat, (∀ x ∈ l, p x = false) → l.dropWhile p = l := by
  intro l hall
  cases l with
  | nil => rfl
  | cons c rest =>
    rw [List.dropWhile_cons_of_neg]
    simp [hall c (List.mem_cons_self c rest)]

theorem stripBy_all_false (p : Nat → Bool) (l : List Nat)
    (hall : ∀ x ∈ l, p x = false) : stripBy p l = l := by
  unfold stripBy
  rw [dropWhile_all_false p l hall,
    dropWhile_all_false p l.reverse (fun x hx => hall x (List.mem_reverse.mp hx)),
    List.reverse_reverse]

theorem validTail_digits : ∀ l : List Nat, (∀ x ∈ l, isDigit x = true) →
    validTail l = true := by
  intro l
  induction l with
  | nil => intro _; rfl
  | cons c rest ih =>
    intro hall
    have hc := hall c (List.mem_cons_self c rest)
    have hc95 : ¬(c = 95) := by
      simp [isDigit] at hc
      omega
    unfold validTail
    rw [if_neg hc95, hc, ih (fun x hx => hall x (List.mem_cons_of_mem c hx))]
    rfl

theorem pyInt_digits (l : List Nat) (hne : l ≠ [])
    (hall : ∀ x ∈ l, isDigit x = true) :
    pyInt l = .ok ((digitsVal l : Nat) : Int) := by
  obtain ⟨c, rest, rfl⟩ := List.exists_cons_of_ne_nil hne
  have hc := hall c (List.mem_cons_self c rest)
  have hndig : ∀ x ∈ c :: rest, isPyWs x = false := by
    intro x hx
    have := hall x hx
    simp [isDigit] at this
    simp [isPyWs]
    omega
  have hstrip : stripBy isPyWs (c :: rest) = c :: rest := stripBy_all_false isPyWs _ hndig
  have hc48 : 48 ≤ c := by
    simp [isDigit] at hc
    omega
  have h45 : ((c :: rest).head? == some 45) = false := by
    simp
    omega
  have h43 : ((c :: rest).head? == some 43) = false := by
    simp
    omega
  have hvalid : validDigits (c :: rest) = true := by
    show (isDigit c && validTail rest) = true
    rw [hc, validTail_digits rest (fun x hx => hall x (List.mem_cons_of_mem c hx))]
    rfl
  have hfilter : (c :: rest).filter isDigit = c :: rest :=
    List.filter_eq_self.mpr hall
  have hc45 : ¬(c = 45) := by omega
  have hc43 : ¬(c = 43) := by omega
  simp only [pyInt, stripWs]
  simp [hstrip, hc45, hc43, hvalid, hfilter]

/-- Evaluation of `splitFrom` at a length-prefix offset holding an ASCII
digit greater than 0, followed by that many ASCII digits and a payload of
the declared length. -/
theorem splitFrom_eval (data : List Nat) (q d0 : Nat) (h : Header)
    (hd0 : data.get? q = some d0)
    (hdig : isDigit d0 = true)
    (hdpos : 48 < d0)
    (hall : ∀ x ∈ (data.drop (q + 1)).take (d0 - 48), isDigit x = true)
    (hlen1 : q + 1 + (d0 - 48) ≤ data.length)
    (hlen2 : q + 1 + (d0 - 48) + digitsVal ((data.drop (q + 1)).take (d0 - 48)) ≤ data.length)
    (hparse : parse_isf_header (data.take (q + 1 + (d0 - 48))) = .ok h) :
    ∃ rest, splitFrom data (q : Int) =
      .ok (h, (data.drop (q + 1 + (d0 - 48))).take
        (digitsVal ((data.drop (q + 1)).take (d0 - 48))), rest) := by
  have e1 : pyInt (pySlice data (q : Int) ((q : Int) + 1)) = .ok ((d0 - 48 : Nat) : Int) := by
    rw [pySlice_single data q d0 hd0,
      pyInt_digits [d0] (by simp) (by
        intro x hx
        rcases List.mem_singleton.mp hx with rfl
        exact hdig)]
    have : digitsVal [d0] = d0 - 48 := by simp [digitsVal]
    rw [this]
  have hDlen : ((data.drop (q + 1)).take (d0 - 48)).length = d0 - 48 := by
    simp only [List.length_take, List.length_drop]
    omega
  have hDne : (data.drop (q + 1)).take (d0 - 48) ≠ [] := by
    intro hnil
    rw [hnil] at hDlen
    simp at hDlen
    omega
  have e2cast : ((q : Int) + (((d0 - 48 : Nat) : Int) + 1)) = ((q + 1 + (d0 - 48) : Nat) : Int) := by
    push_cast
    ring
  have e1cast : ((q : Int) + 1) = ((q + 1 : Nat) : Int) := by push_cast; ring
  have e2 : pyInt (pySlice data ((q : Int) + 1) ((q : Int) + (((d0 - 48 : Nat) : Int) + 1))) =
      .ok ((digitsVal ((data.drop (q + 1)).take (d0 - 48)) : Nat) : Int) := by
    rw [e2cast, e1cast, pySlice_nat data (q + 1) (q + 1 + (d0 - 48)) hlen1,
      show q + 1 + (d0 - 48) - (q + 1) = d0 - 48 by omega]
    exact pyInt_digits _ hDne hall
  have e3 : pySlice data 0 ((q : Int) + (((d0 - 48 : Nat) : Int) + 1)) =
      data.take (q + 1 + (d0 - 48)) := by
    rw [e2cast, show (0 : Int) = ((0 : Nat) : Int) by simp,
      pySlice_nat data 0 (q + 1 + (d0 - 48)) hlen1]
    simp
  have e4cast : ((q : Int) + (((d0 - 48 : Nat) : Int) + 1) +
      ((digitsVal ((data.drop (q + 1)).take (d0 - 48)) : Nat) : Int)) =
      ((q + 1 + (d0 - 48) + digitsVal ((data.drop (q + 1)).take (d0 - 48)) : Nat) : Int) := by
    push_cast
    ring
  have e4 : pySlice data ((q : Int) + (((d0 - 48 : Nat) : Int) + 1))
      ((q : Int) + (((d0 - 48 : Nat) : Int) + 1) +
        ((digitsVal ((data.drop (q + 1)).take (d0 - 48)) : Nat) : Int)) =
      (data.drop (q + 1 + (d0 - 48))).take
        (digitsVal ((data.drop (q + 1)).take (d0 - 48))) := by
    rw [e2cast, ← Nat.cast_add,
      pySlice_nat data (q + 1 + (d0 - 48))
        (q + 1 + (d0 - 48) + digitsVal ((data.drop (q + 1)).take (d0 - 48))) hlen2,
      show q + 1 + (d0 - 48) + digitsVal ((data.drop (q + 1)).take (d0 - 48)) -
        (q + 1 + (d0 - 48)) = digitsVal ((data.drop (q + 1)).take (d0 - 48)) by omega]
  have hmain : splitFrom data (q : Int) =
      .ok (h, (data.drop (q + 1 + (d0 - 48))).take
          (digitsVal ((data.drop (q + 1)).take (d0 - 48))),
        pySlice data ((q : Int) + (((d0 - 48 : Nat) : Int) + 1) +
            ((digitsVal ((data.drop (q + 1)).take (d0 - 48)) : Nat) : Int))
          ((data.length : Nat) : Int)) := by
    simp only [splitFrom, e1, e2, e3, hparse, e4]
  exact ⟨_, hmain⟩

/-- C5 as amended: after locating the marker and its spelling-dependent
offset, the byte there is read as an ASCII digit `d` with
`pad_char = d + 1`; the payload length `data_len` is the ASCII-decimal
value of the next `pad_char - 1` bytes (i.e. `d` bytes, not `pad_char`
bytes as the claim stated); the header text is the buffer prefix up to
and including the `pad_char`-byte length-prefix region (the digit byte
plus those `d` length digits), and the payload is the `data_len` bytes
immediately following it. -/
theorem C5_length_prefix_arithmetic (data : List Nat) (p c d0 off : Nat) (h : Header)
    (hfind : pyFind data (str2l ":CURV") = (p : Int))
    (hidx : pyIndex data ((p : Int) + 5) = .ok c)
    (hoff : off = p + (if c = 69 then 8 else 7))
    (hd0 : data.get? off = some d0)
    (hdig : isDigit d0 = true)
    (hdpos : 48 < d0)
    (hall : ∀ x ∈ (data.drop (off + 1)).take (d0 - 48), isDigit x = true)
    (hlen1 : off + 1 + (d0 - 48) ≤ data.length)
    (hlen2 : off + 1 + (d0 - 48) + digitsVal ((data.drop (off + 1)).take (d0 - 48)) ≤ data.length)
    (hparse : parse_isf_header (data.take (off + 1 + (d0 - 48))) = .ok h)
    (henv : alookup (str2l "PT_FMT") h ≠ some (PyVal.str (str2l "ENV"))) :
    split_isf_header data =
      .ok (h, (data.drop (off + 1 + (d0 - 48))).take
        (digitsVal ((data.drop (off + 1)).take (d0 - 48)))) := by
  obtain ⟨rest, hsf⟩ :=
    splitFrom_eval data off d0 h hd0 hdig hdpos hall hlen1 hlen2 hparse
  have hsplitOnce : splitOnce data =
      .ok (h, (data.drop (off + 1 + (d0 - 48))).take
        (digitsVal ((data.drop (off + 1)).take (d0 - 48))), rest) := by
    simp only [splitOnce, hfind, hidx]
    by_cases hc : c = 69
    · subst hc
      change splitFrom data ((p : Int) + 8) = _
      rw [show ((p : Int) + 8) = ((off : Nat) : Int) by rw [hoff]; simp]
      exact hsf
    · rw [if_neg hc, if_pos (by omega : ¬((p : Int) = -1))]
      change splitFrom data ((p : Int) + 7) = _
      rw [show ((p : Int) + 7) = ((off : Nat) : Int) by rw [hoff, if_neg hc]; push_cast; ring]
      exact hsf
  unfold split_isf_header
  simp only [splitAux, hsplitOnce]
  rw [if_neg henv]

/-- C5 witness: the buffer `":CURVE #13ABC"` — marker at 0, digit `1`,
one length digit `3`, payload `"ABC"`. -/
theorem C5_length_prefix_arithmetic_witness :
    split_isf_header (str2l ":CURVE #13ABC") =
      .ok (C5wHeader, ((str2l ":CURVE #13ABC").drop (8 + 1 + (49 - 48))).take
        (digitsVal (((str2l ":CURVE #13ABC").drop (8 + 1)).take (49 - 48)))) :=
  C5_length_prefix_arithmetic (str2l ":CURVE #13ABC") 0 69 49 8 C5wHeader
    (by with_unfolding_all rfl) (by with_unfolding_all rfl) (by decide)
    (by with_unfolding_all rfl) (by decide) (by decide) (by decide)
    (by decide) (by decide) (by with_unfolding_all rfl) (by decide)

/-! ### Helper lemmas: claim C8 (dialect equivalence) -/

theorem isPrefixOf_append_self : ∀ (pat x : List Nat), List.isPrefixOf pat (pat ++ x) = true := by
  intro pat x
  induction pat with
  | nil => simp [List.isPrefixOf]
  | cons c rest ih => simp [List.isPrefixOf, ih]

theorem containsSub_append_self (pat x : List Nat) : containsSub (pat ++ x) pat = true := by
  unfold containsSub firstOcc
  rw [isPrefixOf_append_self]
  rfl

theorem pyReplaceAux_id (pat : List Nat) :
    ∀ (fuel : Nat) (l : List Nat), l.length ≤ fuel → containsSub l pat = false →
      pyReplaceAux pat fuel l = l := by
  intro fuel
  induction fuel with
  | zero =>
    intro l hl _
    have : l = [] := List.eq_nil_of_length_eq_zero (Nat.le_zero.mp hl)
    subst this
    rfl
  | succ fuel ih =>
    intro l hl hc
    cases l with
    | nil => rfl
    | cons c rest =>
      unfold containsSub firstOcc at hc
      have hpre : List.isPrefixOf pat (c :: rest) = false := by
        by_contra hp
        rw [Bool.not_eq_false] at hp
        rw [hp] at hc
        simp at hc
      rw [hpre] at hc
      simp only [Bool.false_eq_true, if_false] at hc
      have hrest : containsSub rest pat = false := by
        unfold containsSub
        cases hocc : firstOcc rest pat with
        | none => rfl
        | some m => rw [hocc] at hc; simp at hc
      unfold pyReplaceAux
      rw [hpre]
      simp only [Bool.false_eq_true, if_false]
      rw [ih rest (by simp at hl; omega) hrest]

theorem pyReplace_id (l pat : List Nat) (hc : containsSub l pat = false) :
    pyReplace l pat = l := by
  unfold pyReplace
  by_cases hp : pat.isEmpty
  · rw [if_pos hp]
  · rw [if_neg hp]
    exact pyReplaceAux_id pat l.length l le_rfl hc

theorem pyReplace_strip (pat k : List Nat) (hpat : pat ≠ [])
    (hk : containsSub k pat = false) : pyReplace (pat ++ k) pat = k := by
  unfold pyReplace
  rw [if_neg (by simp [hpat])]
  obtain ⟨c, pr, rfl⟩ := List.exists_cons_of_ne_nil hpat
  have hlen : ((c :: pr) ++ k).length = (pr.length + k.length) + 1 := by
    simp only [List.length_append, List.length_cons]
    omega
  rw [hlen]
  show pyReplaceAux (c :: pr) (pr.length + k.length + 1) (c :: (pr ++ k)) = k
  unfold pyReplaceAux
  rw [show (c :: (pr ++ k)) = ((c :: pr) ++ k) by simp,
    isPrefixOf_append_self (c :: pr) k]
  simp only [if_true]
  rw [List.drop_left]
  exact pyReplaceAux_id (c :: pr) _ k (by omega) hk

theorem breakAt_sep (p : Nat → Bool) (s : Nat) (hs : p s = true) :
    ∀ (a b : List Nat), (∀ x ∈ a, p x = false) →
      breakAt p (a ++ s :: b) = (a, some b) := by
  intro a
  induction a with
  | nil =>
    intro b _
    simp [breakAt, hs]
  | cons c rest ih =>
    intro b hall
    have hc := hall c (List.mem_cons_self c rest)
    simp only [List.cons_append, breakAt, hc]
    simp [ih b (fun x hx => hall x (List.mem_cons_of_mem c hx))]

theorem pySplit1_renderTok (key v : List Nat) (hkey : 32 ∉ key) :
    pySplit1 (renderTok key v) 32 = some (key, v) := by
  unfold pySplit1 renderTok
  rw [breakAt_sep (fun c => c == 32) 32 (by simp) key v
    (by intro x hx; simp; exact fun hx32 => hkey (hx32 ▸ hx))]

theorem pySplitOn_no_sep (s : Nat) : ∀ t : List Nat, s ∉ t → pySplitOn s t = [t] := by
  intro t
  induction t with
  | nil => intro _; rfl
  | cons c rest ih =>
    intro hs
    have hc : ¬(c = s) := fun hEq => hs (hEq ▸ List.mem_cons_self c rest)
    unfold pySplitOn
    rw [if_neg hc, ih (fun hm => hs (List.mem_cons_of_mem c hm))]

theorem pySplitOn_append_sep (s : Nat) :
    ∀ (t rest : List Nat), s ∉ t →
      pySplitOn s (t ++ s :: rest) = t :: pySplitOn s rest := by
  intro t
  induction t with
  | nil =>
    intro rest _
    simp [pySplitOn]
  | cons c tr ih =>
    intro rest hs
    have hc : ¬(c = s) := fun hEq => hs (hEq ▸ List.mem_cons_self c tr)
    simp only [List.cons_append]
    simp only [pySplitOn]
    rw [if_neg hc, ih rest (fun hm => hs (List.mem_cons_of_mem c hm))]

theorem joinTok_split : ∀ toks : List (List Nat), toks ≠ [] →
    (∀ t ∈ toks, 59 ∉ t) → pySplitOn 59 (joinTok toks) = toks := by
  intro toks
  induction toks with
  | nil => intro h _; exact absurd rfl h
  | cons t ts ih =>
    intro _ hall
    cases ts with
    | nil =>
      show pySplitOn 59 t = [t]
      exact pySplitOn_no_sep 59 t (hall t (List.mem_cons_self t []))
    | cons t2 ts2 =>
      show pySplitOn 59 (t ++ 59 :: joinTok (t2 :: ts2)) = t :: (t2 :: ts2)
      rw [pySplitOn_append_sep 59 t (joinTok (t2 :: ts2))
        (hall t (List.mem_cons_self t (t2 :: ts2)))]
      rw [ih (by simp) (fun x hx => hall x (List.mem_cons_of_mem t hx))]

theorem joinTok_ne_nil : ∀ toks : List (List Nat), toks ≠ [] →
    (∀ t ∈ toks, t ≠ []) → joinTok toks ≠ [] := by
  intro toks
  induction toks with
  | nil => intro h _; exact absurd rfl h
  | cons t ts _ =>
    intro _ hall
    cases ts with
    | nil => exact hall t (List.mem_cons_self t [])
    | cons t2 ts2 =>
      show t ++ 59 :: joinTok (t2 :: ts2) ≠ []
      simp

theorem joinTok_getLast : ∀ toks : List (List Nat), toks ≠ [] →
    (∀ t ∈ toks, t ≠ [] ∧ 59 ∉ t) → (joinTok toks).getLast? ≠ some 59 := by
  intro toks
  induction toks with
  | nil => intro h _; exact absurd rfl h
  | cons t ts ih =>
    intro _ hall
    cases ts with
    | nil =>
      show t.getLast? ≠ some 59
      intro hl
      obtain ⟨hne, heq⟩ := List.mem_getLast?_eq_getLast (Option.mem_def.mpr hl)
      exact (hall t (List.mem_cons_self t [])).2 (heq ▸ List.getLast_mem hne)
    | cons t2 ts2 =>
      show (t ++ 59 :: joinTok (t2 :: ts2)).getLast? ≠ some 59
      have hjne : joinTok (t2 :: ts2) ≠ [] :=
        joinTok_ne_nil (t2 :: ts2) (by simp)
          (fun x hx => (hall x (List.mem_cons_of_mem t hx)).1)
      rw [List.getLast?_append_of_ne_nil t (by simp : (59 :: joinTok (t2 :: ts2)) ≠ [])]
      rw [show (59 :: joinTok (t2 :: ts2)) = [59] ++ joinTok (t2 :: ts2) by rfl,
        List.getLast?_append_of_ne_nil [59] hjne]
      exact ih (by simp) (fun x hx => hall x (List.mem_cons_of_mem t hx))

theorem stripChar_id (c : Nat) (l : List Nat) (hh : l.head? ≠ some c)
    (hl : l.getLast? ≠ some c) : stripChar c l = l := by
  unfold stripChar stripBy
  have h1 : l.dropWhile (fun x => x == c) = l := by
    cases l with
    | nil => rfl
    | cons a rest =>
      rw [List.dropWhile_cons_of_neg]
      simp
      intro hac
      exact hh (by rw [hac]; rfl)
  rw [h1]
  have h2 : l.reverse.dropWhile (fun x => x == c) = l.reverse := by
    cases hrev : l.reverse with
    | nil => rfl
    | cons a rest =>
      rw [List.dropWhile_cons_of_neg]
      simp
      intro hac
      subst hac
      apply hl
      rw [← List.head?_reverse, hrev]
      rfl
  rw [h2, List.reverse_reverse]

theorem longKey_facts (f : HField) :
    32 ∉ longKey f ∧ longKey f ≠ [] ∧ 59 ∉ longKey f ∧
    containsSub (longKey f) (str2l ":WFMPRE:") = false ∧
    (alookup (longKey f) CORRECTING_HD).join = some (canonKey f) := by
  cases f <;> decide

theorem shortKey_facts (f : HField) :
    32 ∉ shortKey f ∧ shortKey f ≠ [] ∧ 59 ∉ shortKey f ∧
    containsSub (shortKey f) (str2l ":WFMP:") = false ∧
    (alookup (shortKey f) CORRECTING_HD).join = some (canonKey f) := by
  cases f <;> decide

/-- The effect of one rendered `key value` token, written against the
canonical key both spellings normalize to. -/
def stepCanon (f : HField) (v : List Nat) (h : Header) : Except PyErr Header :=
  match alookup (canonKey f) HEADER_DISPATCHER with
  | Option.none => .ok h
  | some g =>
    match g v with
    | .ok val => .ok (aset (canonKey f) val h)
    | .error e => .error e

theorem procToken_renderTok (remove key v : List Nat) (h : Header)
    (hsp : 32 ∉ key) (hne : key ≠ []) :
    procToken remove h (renderTok key v) =
      match (alookup (pyReplace key remove) CORRECTING_HD).join with
      | Option.none => .ok h
      | some ck =>
        match alookup ck HEADER_DISPATCHER with
        | Option.none => .ok h
        | some g =>
          match g v with
          | .ok val => .ok (aset ck val h)
          | .error e => .error e := by
  have hhead : (renderTok key v).head? ≠ some 32 := by
    obtain ⟨c, cr, rfl⟩ := List.exists_cons_of_ne_nil hne
    intro hEq
    simp [renderTok] at hEq
    exact hsp (hEq ▸ List.mem_cons_self c cr)
  have hfind : ¬(pyFind (renderTok key v) [32] = 0) :=
    fun hf => hhead ((pyFind_single_zero _ 32).mp hf)
  simp only [procToken]
  rw [if_neg hfind]
  simp only [pySplit1_renderTok key v hsp]

theorem step_long (f : HField) (v : List Nat) (h : Header) :
    procToken (str2l ":WFMPRE:") h (renderTok (longKey f) v) = stepCanon f v h := by
  obtain ⟨hsp, hne, _, hnc, hjoin⟩ := longKey_facts f
  rw [procToken_renderTok _ _ v h hsp hne, pyReplace_id _ _ hnc]
  simp only [hjoin]
  rfl

theorem step_short (f : HField) (v : List Nat) (h : Header) :
    procToken (str2l ":WFMP:") h (renderTok (shortKey f) v) = stepCanon f v h := by
  obtain ⟨hsp, hne, _, hnc, hjoin⟩ := shortKey_facts f
  rw [procToken_renderTok _ _ v h hsp hne, pyReplace_id _ _ hnc]
  simp only [hjoin]
  rfl

theorem step_long_pref (f : HField) (v : List Nat) (h : Header) :
    procToken (str2l ":WFMPRE:") h (str2l ":WFMPRE:" ++ renderTok (longKey f) v) =
      stepCanon f v h := by
  obtain ⟨hsp, _, _, hnc, hjoin⟩ := longKey_facts f
  have hre : str2l ":WFMPRE:" ++ renderTok (longKey f) v =
      renderTok (str2l ":WFMPRE:" ++ longKey f) v := by
    simp [renderTok]
  rw [hre, procToken_renderTok _ _ v h
    (by
      intro hm
      rcases List.mem_append.mp hm with hm | hm
      · exact absurd hm (by decide)
      · exact hsp hm)
    (by intro hEq; exact absurd (List.append_eq_nil.mp hEq).1 (by decide))]
  rw [pyReplace_strip _ _ (by decide) hnc]
  simp only [hjoin]
  rfl

theorem step_short_pref (f : HField) (v : List Nat) (h : Header) :
    procToken (str2l ":WFMP:") h (str2l ":WFMP:" ++ renderTok (shortKey f) v) =
      stepCanon f v h := by
  obtain ⟨hsp, _, _, hnc, hjoin⟩ := shortKey_facts f
  have hre : str2l ":WFMP:" ++ renderTok (shortKey f) v =
      renderTok (str2l ":WFMP:" ++ shortKey f) v := by
    simp [renderTok]
  rw [hre, procToken_renderTok _ _ v h
    (by
      intro hm
      rcases List.mem_append.mp hm with hm | hm
      · exact absurd hm (by decide)
      · exact hsp hm)
    (by intro hEq; exact absurd (List.append_eq_nil.mp hEq).1 (by decide))]
  rw [pyReplace_strip _ _ (by decide) hnc]
  simp only [hjoin]
  rfl

theorem parseTokens_map_eq :
    ∀ (ps : List (HField × List Nat)) (h : Header),
      parseTokens (str2l ":WFMPRE:") h (ps.map fun p => renderTok (longKey p.1) p.2) =
      parseTokens (str2l ":WFMP:") h (ps.map fun p => renderTok (shortKey p.1) p.2) := by
  intro ps
  induction ps with
  | nil => intro h; rfl
  | cons p pr ih =>
    intro h
    simp only [List.map_cons, parseTokens]
    rw [step_long p.1 p.2 h, step_short p.1 p.2 h]
    cases stepCanon p.1 p.2 h with
    | ok h' => exact ih h'
    | error e => rfl

theorem renderToks_facts (pre : List Nat) (key : HField → List Nat)
    (hpre : pre ≠ [] ∧ 59 ∉ pre)
    (hkey : ∀ f, 59 ∉ key f)
    (ps : List (HField × List Nat)) (hv : ∀ p ∈ ps, ¬(59 ∈ p.2)) :
    ∀ t ∈ renderToks pre key ps, t ≠ [] ∧ 59 ∉ t := by
  have htok : ∀ (f : HField) (v : List Nat), ¬(59 ∈ v) →
      renderTok (key f) v ≠ [] ∧ 59 ∉ renderTok (key f) v := by
    intro f v hv59
    constructor
    · simp [renderTok]
    · intro hm
      rcases List.mem_append.mp hm with hm | hm
      · exact hkey f hm
      · rcases List.mem_cons.mp hm with hm | hm
        · cases hm
        · exact hv59 hm
  cases ps with
  | nil =>
    intro t ht
    rcases List.mem_singleton.mp ht with rfl
    exact hpre
  | cons p prs =>
    intro t ht
    rcases List.mem_cons.mp ht with rfl | ht
    · constructor
      · simp [hpre.1]
      · intro hm
        rcases List.mem_append.mp hm with hm | hm
        · exact hpre.2 hm
        · exact (htok p.1 p.2 (hv p (List.mem_cons_self p prs))).2 hm
    · obtain ⟨q, hq, rfl⟩ := List.mem_map.mp ht
      exact htok q.1 q.2 (hv q (List.mem_cons_of_mem p hq))

theorem joinTok_renderToks_head (pre : List Nat) (key : HField → List Nat)
    (c : Nat) (hpre : pre.head? = some c) (ps : List (HField × List Nat)) :
    (joinTok (renderToks pre key ps)).head? = some c := by
  obtain ⟨pr, rfl⟩ : ∃ pr, pre = c :: pr := by
    cases pre with
    | nil => cases hpre
    | cons a rest =>
      simp at hpre
      exact ⟨rest, by rw [hpre]⟩
  cases ps with
  | nil => rfl
  | cons p prs =>
    show (joinTok (((c :: pr) ++ renderTok (key p.1) p.2) ::
      prs.map (fun q => renderTok (key q.1) q.2))).head? = some c
    cases prs.map (fun q => renderTok (key q.1) q.2) with
    | nil => rfl
    | cons m ms =>
      show (((c :: pr) ++ renderTok (key p.1) p.2) ++ 59 :: joinTok (m :: ms)).head? = some c
      simp

theorem joinTok_renderToks_pre (pre : List Nat) (key : HField → List Nat)
    (ps : List (HField × List Nat)) :
    ∃ r, joinTok (renderToks pre key ps) = pre ++ r := by
  cases ps with
  | nil => exact ⟨[], by simp [renderToks, joinTok]⟩
  | cons p prs =>
    cases hm : prs.map (fun q => renderTok (key q.1) q.2) with
    | nil => exact ⟨renderTok (key p.1) p.2, by simp [renderToks, hm, joinTok]⟩
    | cons m ms =>
      refine ⟨renderTok (key p.1) p.2 ++ 59 :: joinTok (m :: ms), ?_⟩
      show joinTok ((pre ++ renderTok (key p.1) p.2) :: prs.map (fun q => renderTok (key q.1) q.2)) = _
      rw [hm]
      show (pre ++ renderTok (key p.1) p.2) ++ 59 :: joinTok (m :: ms) = _
      simp

/-- C8 counterexample: for the canonical field set { WFID } with the value
`":WFMPRE:"`, the long-spelling text sets `WFID` but the short-spelling
text leaves it at the sentinel: the value makes `':WFMPRE:' in text` true
even for the short text, so the wrong namespace string is stripped and
the short key is not recognized. -/
theorem C8_cex_value_containing_namespace :
    (parse_isf_header (str2l ":WFMPRE:WFID :WFMPRE:")).toOption.map
        (alookup (str2l "WFID")) = some (some (PyVal.str (str2l ":WFMPRE:"))) ∧
    (parse_isf_header (str2l ":WFMP:WFI :WFMPRE:")).toOption.map
        (alookup (str2l "WFID")) = some (some PyVal.none) ∧
    parse_isf_header (str2l ":WFMPRE:WFID :WFMPRE:") ≠
      parse_isf_header (str2l ":WFMP:WFI :WFMPRE:") := by
  have ha : (parse_isf_header (str2l ":WFMPRE:WFID :WFMPRE:")).toOption.map
      (alookup (str2l "WFID")) = some (some (PyVal.str (str2l ":WFMPRE:"))) := by
    with_unfolding_all rfl
  have hb : (parse_isf_header (str2l ":WFMP:WFI :WFMPRE:")).toOption.map
      (alookup (str2l "WFID")) = some (some PyVal.none) := by
    with_unfolding_all rfl
  refine ⟨ha, hb, fun hEq => ?_⟩
  rw [hEq] at ha
  rw [hb] at ha
  exact absurd ha (by decide)

/-- C8 as amended: for every set of canonical fields with given values, the
`:WFMPRE:`-prefixed long-key text and the `:WFMP:`-prefixed short-key
text parse to the same result, provided the values contain no `;` and the
short text does not itself contain the substring `":WFMPRE:"` (a value
containing it flips the namespace detection, as the counterexample
shows). -/
theorem C8_dialect_equivalence (pairs : List (HField × List Nat))
    (hv : ∀ p ∈ pairs, ¬(59 ∈ p.2))
    (hshort : containsSub (renderShort pairs) (str2l ":WFMPRE:") = false) :
    parse_isf_header (renderLong pairs) = parse_isf_header (renderShort pairs) := by
  have hremL : removeOf (renderLong pairs) = str2l ":WFMPRE:" := by
    unfold removeOf
    obtain ⟨r, hr⟩ := joinTok_renderToks_pre (str2l ":WFMPRE:") longKey pairs
    rw [show renderLong pairs = joinTok (renderToks (str2l ":WFMPRE:") longKey pairs) from rfl,
      hr, containsSub_append_self]
    rfl
  have hremS : removeOf (renderShort pairs) = str2l ":WFMP:" := by
    unfold removeOf
    rw [hshort]
    rfl
  have htoksL := renderToks_facts (str2l ":WFMPRE:") longKey ⟨by decide, by decide⟩
    (fun f => (longKey_facts f).2.2.1) pairs hv
  have htoksS := renderToks_facts (str2l ":WFMP:") shortKey ⟨by decide, by decide⟩
    (fun f => (shortKey_facts f).2.2.1) pairs hv
  have hLne : renderToks (str2l ":WFMPRE:") longKey pairs ≠ [] := by
    cases pairs <;> simp [renderToks]
  have hSne : renderToks (str2l ":WFMP:") shortKey pairs ≠ [] := by
    cases pairs <;> simp [renderToks]
  have hstripL : stripChar 59 (renderLong pairs) = renderLong pairs := by
    refine stripChar_id 59 _ ?_ ?_
    · rw [show renderLong pairs = joinTok (renderToks (str2l ":WFMPRE:") longKey pairs) from rfl,
        joinTok_renderToks_head (str2l ":WFMPRE:") longKey 58 (by decide) pairs]
      decide
    · exact joinTok_getLast _ hLne htoksL
  have hstripS : stripChar 59 (renderShort pairs) = renderShort pairs := by
    refine stripChar_id 59 _ ?_ ?_
    · rw [show renderShort pairs = joinTok (renderToks (str2l ":WFMP:") shortKey pairs) from rfl,
        joinTok_renderToks_head (str2l ":WFMP:") shortKey 58 (by decide) pairs]
      decide
    · exact joinTok_getLast _ hSne htoksS
  unfold parse_isf_header
  rw [hremL, hremS]
  show parseTokens (str2l ":WFMPRE:") initHeader
      (pySplitOn 59 (stripChar 59 (joinTok (renderToks (str2l ":WFMPRE:") longKey pairs)))) =
    parseTokens (str2l ":WFMP:") initHeader
      (pySplitOn 59 (stripChar 59 (joinTok (renderToks (str2l ":WFMP:") shortKey pairs))))
  rw [show stripChar 59 (joinTok (renderToks (str2l ":WFMPRE:") longKey pairs)) =
      joinTok (renderToks (str2l ":WFMPRE:") longKey pairs) from hstripL,
    show stripChar 59 (joinTok (renderToks (str2l ":WFMP:") shortKey pairs)) =
      joinTok (renderToks (str2l ":WFMP:") shortKey pairs) from hstripS]
  rw [joinTok_split _ hLne (fun t ht => (htoksL t ht).2),
    joinTok_split _ hSne (fun t ht => (htoksS t ht).2)]
  cases pairs with
  | nil =>
    show parseTokens (str2l ":WFMPRE:") initHeader [str2l ":WFMPRE:"] =
      parseTokens (str2l ":WFMP:") initHeader [str2l ":WFMP:"]
    with_unfolding_all rfl
  | cons p pr =>
    show parseTokens (str2l ":WFMPRE:") initHeader
        ((str2l ":WFMPRE:" ++ renderTok (longKey p.1) p.2) ::
          pr.map (fun q => renderTok (longKey q.1) q.2)) =
      parseTokens (str2l ":WFMP:") initHeader
        ((str2l ":WFMP:" ++ renderTok (shortKey p.1) p.2) ::
          pr.map (fun q => renderTok (shortKey q.1) q.2))
    simp only [parseTokens]
    rw [step_long_pref p.1 p.2 initHeader, step_short_pref p.1 p.2 initHeader]
    cases stepCanon p.1 p.2 initHeader with
    | ok h' => exact parseTokens_map_eq pr h'
    | error e => rfl

/-- C8 witness: the field set { NR_PT ↦ 3, PT_FMT ↦ Y } rendered in both
dialects. -/
theorem C8_dialect_equivalence_witness :
    parse_isf_header (renderLong [(HField.nr_pt, str2l "3"), (HField.pt_fmt, str2l "Y")]) =
      parse_isf_header (renderShort [(HField.nr_pt, str2l "3"), (HField.pt_fmt, str2l "Y")]) :=
  C8_dialect_equivalence [(HField.nr_pt, str2l "3"), (HField.pt_fmt, str2l "Y")]
    (by decide) (by with_unfolding_all rfl)
